import Mathlib

/-!
Verification of the call-session bridge (Twilio <-> OpenAI realtime voice server).
The embedding follows the program variants in src/index.js (the first program,
lines 1-331, is the variant cited for most claims; the assistant-id variant at
lines 587-896 and the variant at lines 897-1190 are cited where noted) and
src/unnamed/part_000.
-/

namespace Heino

/-! ### Farewell-phrase matching (src/index.js:188)

The response.done handler tests
text.match of the pattern (farvel|hej hej|tak for i dag|det var det hele|tak skal du have)
between word boundaries, with the case-insensitive flag.  A word character for the
word-boundary assertion is an ASCII letter, digit or underscore.  All phrases are
ASCII, so ASCII case folding models the case-insensitive flag faithfully. -/

/-- Word character of the regex word-boundary assertion: ASCII alphanumeric or underscore. -/
def isWordChar (c : Char) : Bool := c.isAlphanum || c == '_'

/-- Whitespace trimmed by the string trim method (the ASCII part, which is all the
transcripts at issue contain). -/
def isJsWS (c : Char) : Bool :=
  c == ' ' || c == '\t' || c == '\n' || c == '\r'

/-- The string trim method, modelled on character lists. -/
def trimAscii (l : List Char) : List Char :=
  ((l.dropWhile isJsWS).reverse.dropWhile isJsWS).reverse

/-- The string trim method on strings. -/
def trimS (s : String) : String := String.mk (trimAscii s.toList)

/-- The closing-phrase alternatives of the regex at src/index.js:188. -/
def closingPhrases : List String :=
  ["farvel", "hej hej", "tak for i dag", "det var det hele", "tak skal du have"]

/-- After a candidate match, the next position must be a word boundary:
end of input, or a non-word character. -/
def boundaryAfter : List Char → Bool
  | [] => true
  | c :: _ => !isWordChar c

/-- Scan for an occurrence of phrase p bounded by word boundaries on both sides.
prevIsWord records whether the character just before the current position is a
word character (false at the start of input). -/
def scanBounded (prevIsWord : Bool) (p : List Char) : List Char → Bool
  | [] => false
  | c :: rest =>
    (!prevIsWord && p.isPrefixOf (c :: rest) && boundaryAfter ((c :: rest).drop p.length))
    || scanBounded (isWordChar c) p rest

/-- Case-insensitive bounded search of one phrase in s, per the regex with the
case-insensitive flag: both sides are lowered (the phrases are already lowercase). -/
def hasBoundedMatch (s p : String) : Bool :=
  scanBounded false p.toList (s.toList.map Char.toLower)

/-- The test at src/index.js:188: does the agent text contain one of the closing
phrases, case-insensitively, between word boundaries. -/
def containsClosingPhrase (s : String) : Bool :=
  closingPhrases.any (fun p => hasBoundedMatch s p)

/-! ### The response.done transcript extraction (src/index.js:179-191)

The handler reads
event.response.output optional index 0, optional field content, find of the first
block with a truthy transcript, optional transcript, trim, with empty-string fallback. -/

/-- One content block of a response.done output item. -/
structure ContentBlock where
  transcript : Option String
deriving DecidableEq

/-- One output item of a response.done event. -/
structure OutputItem where
  content : Option (List ContentBlock)
deriving DecidableEq

/-- The find callback: a block whose transcript field is truthy (present and non-empty). -/
def truthyTranscript (c : ContentBlock) : Bool :=
  match c.transcript with
  | some t => t != ""
  | none => false

/-- find of the first content block with a truthy transcript. -/
def findTranscriptBlock (blocks : List ContentBlock) : Option ContentBlock :=
  blocks.find? truthyTranscript

/-- The optional-chain extraction of the agent text at src/index.js:180-181,
ending in trim with empty-string fallback. -/
def extractDoneText (output : Option (List OutputItem)) : String :=
  match output with
  | none => ""
  | some items =>
    match items.head? with
    | none => ""
    | some item =>
      match item.content with
      | none => ""
      | some blocks =>
        match findTranscriptBlock blocks with
        | none => ""
        | some c =>
          match c.transcript with
          | some t => trimS t
          | none => ""

/-! ### The farewell path (src/index.js:132-145, 179-191) -/

/-- Grace delay of the farewell path: setTimeout of endCall with 3500 ms
(src/index.js:144). -/
def FAREWELL_GRACE_MS : Nat := 3500

/-- Outbound effects of the OpenAI-message handler relevant to call closing. -/
inductive OutAction where
  | farewellCreate
  | scheduleEndCall (delayMs : Nat)
deriving DecidableEq

/-- sendFarewell (src/index.js:132-145): sends the farewell response.create at once
and schedules endCall 3500 ms later. -/
def sendFarewell : List OutAction :=
  [OutAction.farewellCreate, OutAction.scheduleEndCall FAREWELL_GRACE_MS]

/-- The response.done branch of the OpenAI-message handler (src/index.js:179-191):
appends the agent line to the transcript when non-empty, and runs sendFarewell when
the text contains a closing phrase. -/
def handleResponseDone (transcript : String) (output : Option (List OutputItem)) :
    String × List OutAction :=
  let text := extractDoneText output
  let transcript2 := if text = "" then transcript else transcript ++ "Bot: " ++ text ++ "\n"
  if containsClosingPhrase text then (transcript2, sendFarewell) else (transcript2, [])

/-! ### Greeting idempotence (src/index.js:112-130, 157-161, 202-208)

The session.created handler sets openAiReady and schedules sendGreeting; the Twilio
start handler sets twilioReady and schedules sendGreeting; sendGreeting itself is
guarded by the greeted flag and by both readiness flags.  The model runs an
arbitrary interleaving of the two readiness events and of scheduled sendGreeting
invocations (greetTimer), which covers every schedule the code can produce,
including redundant retries. -/

/-- The per-session flags involved in greeting dispatch. -/
structure GreetState where
  greeted : Bool
  twilioReady : Bool
  openAiReady : Bool
deriving DecidableEq

/-- Session fields at creation (src/index.js:58-66). -/
def initGreetState : GreetState := ⟨false, false, false⟩

/-- Events that can reach the greeting logic, in any order and multiplicity. -/
inductive GreetEvent where
  | sessionCreated
  | streamStart
  | greetTimer
deriving DecidableEq

/-- sendGreeting (src/index.js:112-130): returns the new state and the number of
greeting response.create messages dispatched (0 or 1). -/
def sendGreeting (s : GreetState) : GreetState × Nat :=
  if s.greeted then (s, 0)
  else if !s.twilioReady || !s.openAiReady then (s, 0)
  else ({ s with greeted := true }, 1)

/-- One event step of the greeting logic. -/
def greetStep (s : GreetState) : GreetEvent → GreetState × Nat
  | GreetEvent.sessionCreated => ({ s with openAiReady := true }, 0)
  | GreetEvent.streamStart => ({ s with twilioReady := true }, 0)
  | GreetEvent.greetTimer => sendGreeting s

/-- Run a sequence of events in arrival order, accumulating the number of
greetings dispatched. -/
def runGreet (s : GreetState) : List GreetEvent → GreetState × Nat
  | [] => (s, 0)
  | e :: rest =>
    let r := greetStep s e
    let rr := runGreet r.1 rest
    (rr.1, r.2 + rr.2)

/-! ### The Inactivity Watchdog (src/index.js:24, 85-91, 176, 206, 216)

resetInactivityTimer clears the pending timer, if any, and arms a fresh one for
INACTIVITY_TIMEOUT ms.  It is called on every Twilio start event, every Twilio
media (caller audio) event, and every completed caller transcription.  Given the
increasing arrival times of these caller-activity events, the timer armed at one
event survives exactly when no later event arrives before its deadline; the model
collects the times at which an armed timer actually expires. -/

/-- The inactivity timeout (src/index.js:24): 20000 ms. -/
def INACTIVITY_TIMEOUT : Nat := 20000

/-- Expiry times of the inactivity timer over a list of caller-activity arrival
times: the timer armed at an event is cleared when the next event arrives before
its deadline, and expires at its deadline otherwise. -/
def watchdogFireTimes : List Nat → List Nat
  | [] => []
  | [t] => [t + INACTIVITY_TIMEOUT]
  | t :: u :: rest =>
    (if u < t + INACTIVITY_TIMEOUT then [] else [t + INACTIVITY_TIMEOUT])
      ++ watchdogFireTimes (u :: rest)

/-! ### Session state and the closing paths (src/index.js:85-91, 132-145, 236-265)

The session record (src/index.js:58-66) owns the inactivity timer handle.  Three
paths can end a call: the Twilio close handler runs cleanup (src/index.js:224-229,
236-239), which clears the timer and closes the OpenAI socket; the farewell path
(sendFarewell, src/index.js:132-145) and the inactivity path (gracefulHangup,
src/index.js:242-255) both schedule endCall (src/index.js:257-265), which only
sends a stop frame to Twilio and touches neither the timer nor the sockets. -/

/-- The per-session state relevant to closing: the call id, the accumulated
transcript, the armed timer deadline (none when no timer is pending), whether the
OpenAI socket is open, and how many stop frames have been sent to the Twilio side. -/
structure SessionS where
  id : String
  transcript : String
  inactivityTimer : Option Nat
  openAiOpen : Bool
  stopsSent : Nat
deriving DecidableEq

/-- resetInactivityTimer (src/index.js:85-91): clear any pending timer and arm a
fresh one for now + INACTIVITY_TIMEOUT. -/
def resetInactivityTimer (now : Nat) (s : SessionS) : SessionS :=
  { s with inactivityTimer := some (now + INACTIVITY_TIMEOUT) }

/-- endCall (src/index.js:257-265): send a stop frame to Twilio.  No timer and no
socket is touched. -/
def endCall (s : SessionS) : SessionS :=
  { s with stopsSent := s.stopsSent + 1 }

/-- cleanup (src/index.js:236-239): clear the pending inactivity timer and close
the OpenAI socket when it is open. -/
def cleanup (s : SessionS) : SessionS :=
  { s with inactivityTimer := none, openAiOpen := false }

/-! ### Base64 and the audio relay (src/index.js:163-170, src/unnamed/part_000:160-173)

The response.audio.delta handler builds the outbound Twilio media frame with
payload Buffer.from of the delta in base64, re-encoded to base64.  The model
implements standard base64 with padding over byte lists; the re-encoding is the
decode-encode round trip, modelled for canonical base64 input, which is the format
of every delta the speech service emits.  The lenient decoding Node applies to
malformed base64 is not modelled. -/

/-- The standard base64 alphabet. -/
def b64Alphabet : List Char :=
  "ABCDEFGHIJKLMNOPQRSTUVWXYZabcdefghijklmnopqrstuvwxyz0123456789+/".toList

/-- Character of one six-bit group. -/
def sextetChar (n : Nat) : Char := b64Alphabet.getD n 'A'

/-- Six-bit value of one base64 character; none for a character outside the
alphabet (in particular for the padding character). -/
def charSextet (c : Char) : Option Nat := b64Alphabet.findIdx? (· == c)

/-- Base64-encode a byte list, with padding. -/
def b64encodeBytes : List Nat → List Char
  | [] => []
  | [b1] => [sextetChar (b1 / 4), sextetChar (b1 % 4 * 16), '=', '=']
  | [b1, b2] =>
    [sextetChar (b1 / 4), sextetChar (b1 % 4 * 16 + b2 / 16), sextetChar (b2 % 16 * 4), '=']
  | b1 :: b2 :: b3 :: rest =>
    sextetChar (b1 / 4) :: sextetChar (b1 % 4 * 16 + b2 / 16) ::
      sextetChar (b2 % 16 * 4 + b3 / 64) :: sextetChar (b3 % 64) :: b64encodeBytes rest

/-- Decode canonical base64 (length a multiple of four, padding only in the final
quadruple); none on anything else. -/
def b64decodeChars : List Char → Option (List Nat)
  | [] => some []
  | c1 :: c2 :: c3 :: c4 :: rest =>
    match charSextet c1, charSextet c2 with
    | some s1, some s2 =>
      if c3 == '=' then
        if c4 == '=' && rest.isEmpty then some [s1 * 4 + s2 / 16] else none
      else
        match charSextet c3 with
        | some s3 =>
          if c4 == '=' then
            if rest.isEmpty then some [s1 * 4 + s2 / 16, s2 % 16 * 16 + s3 / 4] else none
          else
            match charSextet c4, b64decodeChars rest with
            | some s4, some tail =>
              some ((s1 * 4 + s2 / 16) :: (s2 % 16 * 16 + s3 / 4) :: (s3 % 4 * 64 + s4) :: tail)
            | _, _ => none
        | none => none
    | _, _ => none
  | _ => none

/-- The payload re-encoding at src/index.js:167: Buffer.from of the delta in
base64, rendered back to base64; modelled on canonical input. -/
def reencodeB64 (s : String) : Option String :=
  (b64decodeChars s.toList).map (fun bytes => String.mk (b64encodeBytes bytes))

/-- A string that is the canonical base64 rendering of some byte list. -/
def CanonicalB64 (s : String) : Prop :=
  ∃ bytes, (∀ b ∈ bytes, b < 256) ∧ s = String.mk (b64encodeBytes bytes)

/-- Inbound events of the OpenAI socket message handler. -/
inductive OAIEvent where
  | sessionCreated
  | speechStarted
  | speechStopped
  | audioDelta (delta : Option String)
  | transcriptionCompleted (transcript : String)
  | responseDone (output : Option (List OutputItem))
  | other
deriving DecidableEq

/-- One outbound Twilio media frame (src/index.js:164-169). -/
structure TwilioMediaOut where
  streamSid : Option String
  payload : String
deriving DecidableEq

/-- Outbound media frames the OpenAI-message handler produces for one event
(src/index.js:163-170).  A delta event with a payload yields exactly one frame
with the re-encoded payload; a delta event without a payload makes Buffer.from
throw, the catch swallows it and no frame is sent; no other event yields a frame. -/
def mediaOutOfEvent (sid : Option String) : OAIEvent → List TwilioMediaOut
  | OAIEvent.audioDelta (some d) =>
    match reencodeB64 d with
    | some p => [⟨sid, p⟩]
    | none => []
  | _ => []

/-- The media frames produced over a whole inbound event sequence, in order. -/
def relayMediaOut (sid : Option String) : List OAIEvent → List TwilioMediaOut
  | [] => []
  | e :: rest => mediaOutOfEvent sid e ++ relayMediaOut sid rest

/-- The delta payloads carried by an inbound event sequence, in arrival order. -/
def deltaPayloads : List OAIEvent → List String :=
  List.filterMap (fun e => match e with
    | OAIEvent.audioDelta (some d) => some d
    | _ => none)

/-! ### Transcript assembly (src/index.js:172-191)

The transcription handler appends one User line; the response.done handler appends
one Bot line when the extracted text is non-empty.  No other inbound event touches
the transcript, and nothing ever rewrites what is already there. -/

/-- The transcript line one inbound event contributes, if any. -/
def recordOfEvent : OAIEvent → Option String
  | OAIEvent.transcriptionCompleted t => some ("User: " ++ trimS t ++ "\n")
  | OAIEvent.responseDone output =>
    if extractDoneText output = "" then none
    else some ("Bot: " ++ extractDoneText output ++ "\n")
  | _ => none

/-- The transcript update one inbound event performs (src/index.js:172-191). -/
def transcriptStep (tr : String) : OAIEvent → String
  | OAIEvent.transcriptionCompleted t => tr ++ ("User: " ++ trimS t ++ "\n")
  | OAIEvent.responseDone output => (handleResponseDone tr output).1
  | _ => tr

/-- The transcript after processing a sequence of inbound events in arrival order. -/
def runTranscript (tr : String) : List OAIEvent → String
  | [] => tr
  | e :: rest => runTranscript (transcriptStep tr e) rest

/-- Concatenation of a list of transcript records. -/
def joinRecords (rs : List String) : String :=
  rs.foldr (fun r acc => r ++ acc) ""

/-! ### Turn detection and the speech-stopped reaction
(src/unnamed/part_000:104-120 and 142-145; src/index.js:93-110, 150, 732-735)

The part_000 program configures turn_detection server_vad (automatic,
service-driven voice activity detection) and its message handler reacts to
input_audio_buffer.speech_stopped by sending a bare response.create.  The first
program of src/index.js calls sendSessionUpdate with autoStart true, which
configures turn_detection type none (manual), and its message handler has no
speech_stopped branch at all. -/

/-- The turn_detection field of a session.update configuration event. -/
structure SessionConfig where
  turnDetectionType : String
deriving DecidableEq

/-- sendSessionUpdate of src/unnamed/part_000 (lines 104-120): server_vad. -/
def part000SessionUpdate : SessionConfig := ⟨"server_vad"⟩

/-- sendSessionUpdate of the first program of src/index.js (lines 93-110): type
none when autoStart, server_vad otherwise. -/
def indexSessionUpdate (autoStart : Bool) : SessionConfig :=
  ⟨if autoStart then "none" else "server_vad"⟩

/-- The open handler (src/index.js:150) calls sendSessionUpdate with true. -/
def indexSessionUpdateSent : SessionConfig := indexSessionUpdate true

/-- Whether a configuration selects automatic, service-driven turn detection. -/
def isAutomaticTurnDetection (c : SessionConfig) : Bool :=
  c.turnDetectionType == "server_vad"

/-- Messages a handler sends to the speech socket in reaction to one inbound event. -/
inductive OAIOutMsg where
  | responseCreateBare
deriving DecidableEq

/-- The part_000 message handler reaction on the speech socket (lines 142-145):
a bare response.create on every speech_stopped event.  The handler at
src/index.js:732-735 behaves identically. -/
def part000SpeechSocketSends : OAIEvent → List OAIOutMsg
  | OAIEvent.speechStopped => [OAIOutMsg.responseCreateBare]
  | _ => []

/-- The first program of src/index.js sends nothing to the speech socket from its
message handler in reaction to speech boundary events. -/
def indexSpeechSocketSends : OAIEvent → List OAIOutMsg := fun _ => []

/-! ### The Twilio close handler (src/index.js:224-229) -/

/-- Everything the Twilio close handler produces: the session state after cleanup,
the calls into the extraction pipeline (transcript and id pairs), and the registry
membership map after the delete. -/
structure ConnCloseOutcome where
  sessionAfter : SessionS
  extractionCalls : List (String × String)
  registryAfter : String → Bool

/-- The Twilio close handler (src/index.js:224-229): run cleanup, hand the
accumulated transcript and the session id to processTranscriptAndSend, then delete
the session from the registry map. -/
def onConnClose (s : SessionS) (registry : String → Bool) : ConnCloseOutcome :=
  { sessionAfter := cleanup s
    extractionCalls := [(s.transcript, s.id)]
    registryAfter := fun x => if x == s.id then false else registry x }

/-! ### The post-call extraction pipeline (src/index.js:267-321)

processTranscriptAndSend awaits makeChatGPTCompletion (whose own failures are
caught and produce an undefined result, hence missing content), reads the
optional-chain content, returns with a warning when content is missing, then tries
to parse the content as JSON: on success the parsed object is posted to the
webhook, on failure a warning is logged; an outer catch turns any remaining error
into a log.  JSON parsing is a platform primitive, modelled as a parameter. -/

/-- The shape of a chat-completion result the pipeline reads: the optional-chain
content at choices 0, message, content; none when any link is missing, which is
also what the caught failure of makeChatGPTCompletion (undefined result) yields. -/
structure ChatCompletionResult where
  content : Option String
deriving DecidableEq

/-- The externally visible outcome of one pipeline run. -/
structure PipelineRun (J : Type) where
  webhookPosts : List J
  logs : List String

/-- processTranscriptAndSend (src/index.js:301-321).  The awaited completion is an
Except value (error for a thrown rejection, caught by the outer catch); parse
models the JSON parse primitive, none for a parse error (caught by the inner
catch).  The Except result type records whether any exception escapes to the
caller: every branch ends in ok. -/
def processTranscriptAndSend {J : Type} (parse : String → Option J)
    (apiResult : Except String ChatCompletionResult) :
    Except String (PipelineRun J) :=
  match apiResult with
  | Except.error e =>
    Except.ok { webhookPosts := [], logs := ["processTranscriptAndSend fejl: " ++ e] }
  | Except.ok r =>
    match r.content with
    | none => Except.ok { webhookPosts := [], logs := ["Ingen content modtaget fra OpenAI"] }
    | some c =>
      match parse c with
      | none =>
        Except.ok { webhookPosts := [], logs := ["Modtaget ikke-JSON svar fra OpenAI: " ++ c] }
      | some v => Except.ok { webhookPosts := [v], logs := [] }

/-! ### The agent-message placeholder (src/unnamed/part_000:153-157)

The response.done handler of part_000 (and, identically, of the variants at
src/index.js:743-749 and src/index.js:1038-1042) reads
response.response.output index 0, optional content, find of first block with a
truthy transcript, optional transcript, with the fallback string
Agent message not found, and appends the result as an Agent line. -/

/-- The agent message of a response.done event per part_000 lines 153-157: the
found transcript of the first output item, or the literal placeholder. -/
def agentMessageOf (output : List OutputItem) : String :=
  match output.head? with
  | none => "Agent message not found"
  | some item =>
    match item.content with
    | none => "Agent message not found"
    | some blocks =>
      match findTranscriptBlock blocks with
      | none => "Agent message not found"
      | some c =>
        match c.transcript with
        | some t => if t = "" then "Agent message not found" else t
        | none => "Agent message not found"

/-- The transcript update of the part_000 response.done handler: always appends
one Agent line. -/
def part000ResponseDoneStep (tr : String) (output : List OutputItem) : String :=
  tr ++ ("Agent: " ++ agentMessageOf output ++ "\n")

/-- Whether the first output item carries a truthy transcript. -/
def headHasTranscript (output : List OutputItem) : Bool :=
  match output.head? with
  | none => false
  | some item =>
    match item.content with
    | none => false
    | some blocks =>
      match findTranscriptBlock blocks with
      | none => false
      | some c =>
        match c.transcript with
        | some t => t != ""
        | none => false

theorem greetStep_greeted_mono (s : GreetState) (e : GreetEvent)
    (h : s.greeted = true) : (greetStep s e).1.greeted = true ∧ (greetStep s e).2 = 0 := by
  cases e <;> simp [greetStep, sendGreeting, h]

theorem greetStep_count (s : GreetState) (e : GreetEvent) (h : s.greeted = false) :
    (greetStep s e).2 = (if (greetStep s e).1.greeted then 1 else 0) := by
  cases e <;> simp only [greetStep, sendGreeting, h]
  · simp [h]
  · simp [h]
  · by_cases h2 : !s.twilioReady || !s.openAiReady <;> simp [h2, h]

theorem runGreet_invariant (evs : List GreetEvent) (s : GreetState) :
    (s.greeted = true → (runGreet s evs).1.greeted = true ∧ (runGreet s evs).2 = 0) ∧
    (s.greeted = false →
      (runGreet s evs).2 = (if (runGreet s evs).1.greeted then 1 else 0)) := by
  induction evs generalizing s with
  | nil =>
    refine ⟨fun h => ⟨h, rfl⟩, fun h => ?_⟩
    simp [runGreet, h]
  | cons e rest ih =>
    constructor
    · intro h
      obtain ⟨h1, h2⟩ := greetStep_greeted_mono s e h
      obtain ⟨ih1, _⟩ := ih (greetStep s e).1
      simp only [runGreet]
      exact ⟨(ih1 h1).1, by rw [h2, (ih1 h1).2]⟩
    · intro h
      simp only [runGreet]
      have hc := greetStep_count s e h
      by_cases hg : (greetStep s e).1.greeted
      · obtain ⟨ih1, _⟩ := ih (greetStep s e).1
        simp [(ih1 hg).1, (ih1 hg).2, hc, hg]
      · obtain ⟨_, ih2⟩ := ih (greetStep s e).1
        have hg2 : (greetStep s e).1.greeted = false := by
          cases hb : (greetStep s e).1.greeted
          · rfl
          · exact absurd hb hg
        rw [ih2 hg2, hc, hg2]
        simp

/-- Claim C1: a response.done event whose extracted transcript text contains a
closing phrase (case-insensitive, word-bounded; the set includes farvel, hej hej,
tak for i dag) makes the handler dispatch the farewell response.create at once and
schedule the hangup (endCall) only after the 3500 ms grace delay, with no earlier
hangup action. -/
theorem farewell_phrase_triggers_graceful_closing
    (transcript : String) (output : Option (List OutputItem))
    (h : containsClosingPhrase (extractDoneText output) = true) :
    (handleResponseDone transcript output).2 =
      [OutAction.farewellCreate, OutAction.scheduleEndCall FAREWELL_GRACE_MS] ∧
    1000 ≤ FAREWELL_GRACE_MS ∧ FAREWELL_GRACE_MS ≤ 5000 := by
  refine ⟨?_, by decide, by decide⟩
  simp only [handleResponseDone, h, if_true, sendFarewell]

/-- Witness for C1: the transcript "Farvel, god dag!" triggers the closing path. -/
theorem farewell_phrase_triggers_graceful_closing_witness :
    (handleResponseDone "" (some [⟨some [⟨some "Farvel, god dag!"⟩]⟩])).2 =
      [OutAction.farewellCreate, OutAction.scheduleEndCall FAREWELL_GRACE_MS] :=
  (farewell_phrase_triggers_graceful_closing "" (some [⟨some [⟨some "Farvel, god dag!"⟩]⟩])
    (by decide)).1

/-- Claim C2: over every sequence of session-ready (session.created), stream-start
and scheduled-greeting events, starting from the initial session state, at most one
greeting response.create is ever dispatched, the dispatch count is exactly the
greeted flag, and once greeted is true no later event run dispatches another
greeting or resets the flag. -/
theorem greeting_dispatched_at_most_once (evs : List GreetEvent) :
    (runGreet initGreetState evs).2 ≤ 1 ∧
    (runGreet initGreetState evs).2 =
      (if (runGreet initGreetState evs).1.greeted then 1 else 0) ∧
    (∀ (s : GreetState) (evs2 : List GreetEvent), s.greeted = true →
      (runGreet s evs2).1.greeted = true ∧ (runGreet s evs2).2 = 0) := by
  obtain ⟨_, h2⟩ := runGreet_invariant evs initGreetState
  have hcount := h2 rfl
  refine ⟨?_, hcount, fun s evs2 hs => (runGreet_invariant evs2 s).1 hs⟩
  rw [hcount]
  by_cases hb : (runGreet initGreetState evs).1.greeted <;> simp [hb]

/-- Claim C3: over any non-empty increasing sequence of caller-activity events in
which consecutive events are separated by less than INACTIVITY_TIMEOUT, the
watchdog expires exactly once, at the deadline of the last event (last time plus
the timeout), and every event strictly precedes that expiry, so it never fires
while such events keep arriving. -/
theorem watchdog_fires_once_after_last_activity (t0 : Nat) (ts : List Nat)
    (h : List.Chain' (fun a b => a < b ∧ b < a + INACTIVITY_TIMEOUT) (t0 :: ts)) :
    watchdogFireTimes (t0 :: ts) =
      [(t0 :: ts).getLast (List.cons_ne_nil t0 ts) + INACTIVITY_TIMEOUT] ∧
    (∀ u ∈ t0 :: ts, u < (t0 :: ts).getLast (List.cons_ne_nil t0 ts) + INACTIVITY_TIMEOUT) := by
  induction ts generalizing t0 with
  | nil =>
    refine ⟨rfl, ?_⟩
    intro u hu
    simp only [List.mem_singleton] at hu
    simp [hu, INACTIVITY_TIMEOUT]
  | cons t1 rest ih =>
    rw [List.chain'_cons] at h
    obtain ⟨⟨hlt, hgap⟩, hchain⟩ := h
    obtain ⟨ihEq, ihLt⟩ := ih t1 hchain
    have hlast : (t0 :: t1 :: rest).getLast (List.cons_ne_nil t0 (t1 :: rest)) =
        (t1 :: rest).getLast (List.cons_ne_nil t1 rest) := by
      simp [List.getLast_cons]
    refine ⟨?_, ?_⟩
    · simp only [watchdogFireTimes, if_pos hgap, List.nil_append, hlast, ihEq]
    · intro u hu
      rw [hlast]
      rcases List.mem_cons.mp hu with hu0 | hu1
      · subst hu0
        have := ihLt t1 (List.mem_cons_self t1 rest)
        omega
      · exact ihLt u hu1

/-- Witness for C3 (the Scenario B trace): caller audio every 5000 ms from 0 to
60000 ms, then silence; the watchdog fires exactly once, at 80000 ms. -/
theorem watchdog_fires_once_after_last_activity_witness :
    watchdogFireTimes
      [0, 5000, 10000, 15000, 20000, 25000, 30000, 35000, 40000, 45000, 50000, 55000, 60000] =
      [80000] :=
  (watchdog_fires_once_after_last_activity 0
    [5000, 10000, 15000, 20000, 25000, 30000, 35000, 40000, 45000, 50000, 55000, 60000]
    (by simp [List.chain'_cons, List.chain'_singleton, INACTIVITY_TIMEOUT])).1

/-- Counterexample to C4: a session on the farewell closing path.  Caller activity
at time 0 arms the watchdog for time 20000; a farewell response at time 1000
schedules endCall, which runs at time 4500 and hangs up; the timer is still armed
for time 20000, after the hangup, so a watchdog timer survives a session that
closed through the farewell path. -/
theorem farewell_path_leaves_watchdog_armed :
    (endCall (resetInactivityTimer 0 ⟨"CA1", "User: Farvel\n", none, true, 0⟩)).stopsSent = 1 ∧
    (endCall (resetInactivityTimer 0 ⟨"CA1", "User: Farvel\n", none, true, 0⟩)).inactivityTimer =
      some INACTIVITY_TIMEOUT ∧
    (endCall (resetInactivityTimer 0 ⟨"CA1", "User: Farvel\n", none, true, 0⟩)).inactivityTimer ≠ none ∧
    1000 + FAREWELL_GRACE_MS < INACTIVITY_TIMEOUT := by
  refine ⟨rfl, rfl, by simp [endCall, resetInactivityTimer], by decide⟩

/-- Claim C4, amended: the inactivity timer is fully cancelled on the
telephony-close path (cleanup), but the farewell and inactivity closing paths end
in endCall, which leaves the timer exactly as it was, so on those paths
cancellation only happens if the telephony side closes the connection afterwards. -/
theorem watchdog_cancelled_only_by_cleanup (s : SessionS) :
    (cleanup s).inactivityTimer = none ∧
    (endCall s).inactivityTimer = s.inactivityTimer ∧
    sendFarewell = [OutAction.farewellCreate, OutAction.scheduleEndCall FAREWELL_GRACE_MS] :=
  ⟨rfl, rfl, rfl⟩

theorem charSextet_sextetChar : ∀ k, k < 64 → charSextet (sextetChar k) = some k := by
  decide

theorem sextetChar_beq_pad : ∀ k, k < 64 → (sextetChar k == '=') = false := by
  decide

theorem b64_decode_encode (bytes : List Nat) (h : ∀ b ∈ bytes, b < 256) :
    b64decodeChars (b64encodeBytes bytes) = some bytes := by
  induction bytes using b64encodeBytes.induct with
  | case1 => simp [b64encodeBytes, b64decodeChars]
  | case2 b1 =>
    have h1 : b1 < 256 := h b1 (by simp)
    simp only [b64encodeBytes, b64decodeChars,
      charSextet_sextetChar _ (show b1 / 4 < 64 by omega),
      charSextet_sextetChar _ (show b1 % 4 * 16 < 64 by omega)]
    simp
    omega
  | case3 b1 b2 =>
    have h1 : b1 < 256 := h b1 (by simp)
    have h2 : b2 < 256 := h b2 (by simp)
    simp only [b64encodeBytes, b64decodeChars,
      charSextet_sextetChar _ (show b1 / 4 < 64 by omega),
      charSextet_sextetChar _ (show b1 % 4 * 16 + b2 / 16 < 64 by omega),
      charSextet_sextetChar _ (show b2 % 16 * 4 < 64 by omega),
      sextetChar_beq_pad _ (show b2 % 16 * 4 < 64 by omega)]
    simp
    omega
  | case4 b1 b2 b3 rest ih =>
    have h1 : b1 < 256 := h b1 (by simp)
    have h2 : b2 < 256 := h b2 (by simp)
    have h3 : b3 < 256 := h b3 (by simp)
    have hrest : ∀ b ∈ rest, b < 256 := fun b hb => h b (by simp [hb])
    simp only [b64encodeBytes, b64decodeChars,
      charSextet_sextetChar _ (show b1 / 4 < 64 by omega),
      charSextet_sextetChar _ (show b1 % 4 * 16 + b2 / 16 < 64 by omega),
      charSextet_sextetChar _ (show b2 % 16 * 4 + b3 / 64 < 64 by omega),
      charSextet_sextetChar _ (show b3 % 64 < 64 by omega),
      sextetChar_beq_pad _ (show b2 % 16 * 4 + b3 / 64 < 64 by omega),
      sextetChar_beq_pad _ (show b3 % 64 < 64 by omega),
      ih hrest]
    simp
    omega

theorem reencodeB64_of_canonical (s : String) (h : CanonicalB64 s) :
    reencodeB64 s = some s := by
  obtain ⟨bytes, hb, rfl⟩ := h
  simp only [reencodeB64]
  have : (String.mk (b64encodeBytes bytes)).toList = b64encodeBytes bytes := rfl
  rw [this, b64_decode_encode bytes hb]
  rfl

/-- Claim C5: when every delta payload is canonical base64 (the format the speech
service emits), the handler produces exactly one outbound Twilio media frame per
agent-audio-chunk event, with a payload identical to the received delta, in the
arrival order of the chunks, and no frame for any other event. -/
theorem audio_delta_relay_exact (sid : Option String) (evs : List OAIEvent)
    (h : ∀ d ∈ deltaPayloads evs, CanonicalB64 d) :
    relayMediaOut sid evs = (deltaPayloads evs).map (fun d => ⟨sid, d⟩) := by
  induction evs with
  | nil => rfl
  | cons e rest ih =>
    cases e with
    | audioDelta od =>
      cases od with
      | some d =>
        have hd : CanonicalB64 d := h d (by simp [deltaPayloads])
        have hrest : ∀ x ∈ deltaPayloads rest, CanonicalB64 x := fun x hx =>
          h x (by simp [deltaPayloads] at hx ⊢; exact Or.inr hx)
        simp [relayMediaOut, mediaOutOfEvent, deltaPayloads, reencodeB64_of_canonical d hd,
          ih hrest]
      | none =>
        have hrest : ∀ x ∈ deltaPayloads rest, CanonicalB64 x := fun x hx =>
          h x (by simpa [deltaPayloads] using hx)
        simp [relayMediaOut, mediaOutOfEvent, deltaPayloads, ih hrest]
    | sessionCreated =>
      have hrest : ∀ x ∈ deltaPayloads rest, CanonicalB64 x := fun x hx =>
        h x (by simpa [deltaPayloads] using hx)
      simp [relayMediaOut, mediaOutOfEvent, deltaPayloads, ih hrest]
    | speechStarted =>
      have hrest : ∀ x ∈ deltaPayloads rest, CanonicalB64 x := fun x hx =>
        h x (by simpa [deltaPayloads] using hx)
      simp [relayMediaOut, mediaOutOfEvent, deltaPayloads, ih hrest]
    | speechStopped =>
      have hrest : ∀ x ∈ deltaPayloads rest, CanonicalB64 x := fun x hx =>
        h x (by simpa [deltaPayloads] using hx)
      simp [relayMediaOut, mediaOutOfEvent, deltaPayloads, ih hrest]
    | transcriptionCompleted t =>
      have hrest : ∀ x ∈ deltaPayloads rest, CanonicalB64 x := fun x hx =>
        h x (by simpa [deltaPayloads] using hx)
      simp [relayMediaOut, mediaOutOfEvent, deltaPayloads, ih hrest]
    | responseDone output =>
      have hrest : ∀ x ∈ deltaPayloads rest, CanonicalB64 x := fun x hx =>
        h x (by simpa [deltaPayloads] using hx)
      simp [relayMediaOut, mediaOutOfEvent, deltaPayloads, ih hrest]
    | other =>
      have hrest : ∀ x ∈ deltaPayloads rest, CanonicalB64 x := fun x hx =>
        h x (by simpa [deltaPayloads] using hx)
      simp [relayMediaOut, mediaOutOfEvent, deltaPayloads, ih hrest]

/-- Witness for C5: a concrete session with one delta among other events relays
exactly that payload, unmodified. -/
theorem audio_delta_relay_exact_witness :
    relayMediaOut (some "MZ123")
      [OAIEvent.sessionCreated, OAIEvent.audioDelta (some "AAAA"), OAIEvent.other] =
      [⟨some "MZ123", "AAAA"⟩] := by
  have h : ∀ d ∈ deltaPayloads
      [OAIEvent.sessionCreated, OAIEvent.audioDelta (some "AAAA"), OAIEvent.other],
      CanonicalB64 d := by
    intro d hd
    simp [deltaPayloads] at hd
    exact hd ▸ ⟨[0, 0, 0], by decide, by decide⟩
  simpa using audio_delta_relay_exact (some "MZ123")
    [OAIEvent.sessionCreated, OAIEvent.audioDelta (some "AAAA"), OAIEvent.other] h

theorem handleResponseDone_fst (tr : String) (output : Option (List OutputItem)) :
    (handleResponseDone tr output).1 =
      if extractDoneText output = "" then tr
      else tr ++ "Bot: " ++ extractDoneText output ++ "\n" := by
  simp only [handleResponseDone]
  split <;> rfl

theorem transcriptStep_eq_append (tr : String) (e : OAIEvent) :
    transcriptStep tr e = tr ++ (recordOfEvent e).getD "" := by
  cases e with
  | transcriptionCompleted t => rfl
  | responseDone output =>
    simp only [transcriptStep, recordOfEvent, handleResponseDone_fst]
    by_cases hx : extractDoneText output = ""
    · simp [hx, String.append_empty]
    · simp [hx, String.append_assoc]
  | sessionCreated => simp [transcriptStep, recordOfEvent, String.append_empty]
  | speechStarted => simp [transcriptStep, recordOfEvent, String.append_empty]
  | speechStopped => simp [transcriptStep, recordOfEvent, String.append_empty]
  | audioDelta d => simp [transcriptStep, recordOfEvent, String.append_empty]
  | other => simp [transcriptStep, recordOfEvent, String.append_empty]

/-- Claim C6: the transcript is append-only.  Every run over an event sequence
leaves the prior transcript as an untouched prefix followed by exactly the records
the events contribute, one record at most per completion event, concatenated in
arrival order; and processing further events only ever extends the result. -/
theorem transcript_append_only (tr : String) (evs : List OAIEvent) :
    runTranscript tr evs = tr ++ joinRecords (evs.filterMap recordOfEvent) ∧
    (∀ evs2, runTranscript tr (evs ++ evs2) = runTranscript (runTranscript tr evs) evs2) := by
  constructor
  · induction evs generalizing tr with
    | nil => simp [runTranscript, joinRecords, String.append_empty]
    | cons e rest ih =>
      rw [runTranscript, ih (transcriptStep tr e), transcriptStep_eq_append,
        List.filterMap_cons]
      cases hrec : recordOfEvent e with
      | none => simp [String.append_empty]
      | some r => simp [joinRecords, String.append_assoc]
  · intro evs2
    induction evs generalizing tr with
    | nil => rfl
    | cons e rest ih => rw [List.cons_append, runTranscript, runTranscript, ih]

/-- Counterexample to C7: the part_000 session is configured for automatic
(server_vad) turn detection, yet its handler does send an explicit turn-end
response.create on caller-speech-stopped, duplicating the service-driven
triggering the claim says is never duplicated. -/
theorem server_vad_variant_sends_turn_end_signal :
    isAutomaticTurnDetection part000SessionUpdate = true ∧
    part000SpeechSocketSends OAIEvent.speechStopped = [OAIOutMsg.responseCreateBare] :=
  ⟨rfl, rfl⟩

/-- Claim C7, amended: the variant configured for manual turn detection (type
none) never sends a turn-end signal on caller-speech-stopped, but the variants
configured for automatic server_vad detection send a bare response.create on every
caller-speech-stopped event, so the explicit signal accompanies automatic, not
manual, turn detection. -/
theorem turn_end_signal_per_variant :
    isAutomaticTurnDetection indexSessionUpdateSent = false ∧
    (∀ e, indexSpeechSocketSends e = []) ∧
    isAutomaticTurnDetection part000SessionUpdate = true ∧
    part000SpeechSocketSends OAIEvent.speechStopped = [OAIOutMsg.responseCreateBare] :=
  ⟨rfl, fun _ => rfl, rfl, rfl⟩

/-- Claim C8: an abrupt telephony close, in any session state (in particular
mid-ACTIVE, and even with an empty transcript), closes the speech socket, cancels
the inactivity watchdog, invokes the extraction pipeline exactly once with the
transcript accumulated so far, and removes the session from the registry. -/
theorem conn_close_runs_full_teardown (s : SessionS) (registry : String → Bool) :
    (onConnClose s registry).sessionAfter.openAiOpen = false ∧
    (onConnClose s registry).sessionAfter.inactivityTimer = none ∧
    (onConnClose s registry).extractionCalls = [(s.transcript, s.id)] ∧
    (onConnClose s registry).registryAfter s.id = false := by
  refine ⟨rfl, rfl, rfl, ?_⟩
  simp [onConnClose]

/-- Claim C9: the pipeline never lets an exception escape to its caller (every run
ends in ok), the webhook is posted exactly when the completion produced content
that parses, and whenever no webhook post happens a failure log is written; in
particular missing or unparseable content produces no post and a log. -/
theorem extraction_pipeline_webhook_guard {J : Type} (parse : String → Option J)
    (apiResult : Except String ChatCompletionResult) :
    ∃ run, processTranscriptAndSend parse apiResult = Except.ok run ∧
      (run.webhookPosts ≠ [] ↔
        ∃ r c v, apiResult = Except.ok r ∧ r.content = some c ∧ parse c = some v) ∧
      (run.webhookPosts = [] → run.logs ≠ []) := by
  cases apiResult with
  | error e =>
    refine ⟨_, rfl, ?_, by simp⟩
    simp only [processTranscriptAndSend]
    constructor
    · intro hne; exact absurd rfl hne
    · rintro ⟨r, c, v, hr, _⟩; cases hr
  | ok r =>
    cases hc : r.content with
    | none =>
      refine ⟨⟨[], ["Ingen content modtaget fra OpenAI"]⟩,
        by simp [processTranscriptAndSend, hc], ?_, by simp⟩
      constructor
      · intro hne; exact absurd rfl hne
      · rintro ⟨r2, c, v, hr, hcon, _⟩
        cases hr
        rw [hc] at hcon
        cases hcon
    | some c =>
      cases hp : parse c with
      | none =>
        refine ⟨⟨[], ["Modtaget ikke-JSON svar fra OpenAI: " ++ c]⟩,
          by simp [processTranscriptAndSend, hc, hp], ?_, by simp⟩
        constructor
        · intro hne; exact absurd rfl hne
        · rintro ⟨r2, c2, v, hr, hcon, hpar⟩
          cases hr
          rw [hc] at hcon
          cases hcon
          rw [hp] at hpar
          cases hpar
      | some v =>
        refine ⟨⟨[v], []⟩,
          by simp [processTranscriptAndSend, hc, hp], ?_, by simp⟩
        constructor
        · intro _; exact ⟨r, c, v, rfl, hc, hp⟩
        · intro _; simp

/-- Claim C10: when the first output item of a response.done event carries no
transcript, the handler appends the literal placeholder line, and the agent
message never depends on anything beyond the first output item, so a transcript
carried only in a later item is never recorded. -/
theorem response_done_placeholder_and_head_only (tr : String) (output : List OutputItem)
    (h : headHasTranscript output = false) :
    part000ResponseDoneStep tr output = tr ++ "Agent: Agent message not found\n" ∧
    (∀ (o : OutputItem) (rest : List OutputItem),
      agentMessageOf (o :: rest) = agentMessageOf [o]) := by
  constructor
  · have hmsg : agentMessageOf output = "Agent message not found" := by
      cases output with
      | nil => rfl
      | cons item rest =>
        cases hcont : item.content with
        | none => simp [agentMessageOf, hcont]
        | some blocks =>
          cases hf : findTranscriptBlock blocks with
          | none => simp [agentMessageOf, hcont, hf]
          | some cb =>
            cases ht : cb.transcript with
            | none => simp [agentMessageOf, hcont, hf, ht]
            | some t =>
              have hte : t = "" := by
                simp only [headHasTranscript, List.head?_cons, hcont, hf, ht] at h
                simpa using h
              simp [agentMessageOf, hcont, hf, ht, hte]
    rw [part000ResponseDoneStep, hmsg]
    rfl
  · intro o rest
    rfl

/-- Witness for C10: an event whose first output item is empty while the second
carries the transcript Hej still records only the placeholder line. -/
theorem response_done_placeholder_and_head_only_witness :
    part000ResponseDoneStep "" [⟨some []⟩, ⟨some [⟨some "Hej"⟩]⟩] =
      "Agent: Agent message not found\n" :=
  (response_done_placeholder_and_head_only "" [⟨some []⟩, ⟨some [⟨some "Hej"⟩]⟩]
    (by decide)).1

end Heino

